import Mathlib

/-!
Verification development for the spike-actor-system audio engine.

Each definition below is a shallow embedding of the corresponding Rust
item, translated directly from the sources in `src/`:

* `StereoSample`, `ControlLink`, `Track.unlink`                  — `src/track.rs`
* `Subscription` operations                                      — `src/subscription.rs`
* `Mixer`                                                        — `src/mixer.rs`
* backpressure bridge (`bridgeNeedsAudio`, `bridgeFrames`)       — `src/engine.rs`
* track generation state machine (`handleNeedsAudio`, ...)       — `src/track.rs`
* `wavProcess`                                                   — `src/wav_writer.rs`
* bounded-channel `trySend` / `sendRequest`                      — `src/traits.rs`, `src/entity.rs`

Samples are modelled with exact rational arithmetic (the Rust code uses
`f64`; the claims under study are structural — which samples are combined,
in which order, with which coefficients — so `ℚ` is the faithful exact
counterpart). Machine panics (`assert!`, `panic!`, slice-length mismatch
in `copy_from_slice`) are modelled as `Except.error`.
-/

/-- A stereo audio sample: `StereoSample` from ensnare, a pair (left, right).
Additive under mixing, with a `SILENCE` value of (0, 0). -/
structure StereoSample where
  left : ℚ
  right : ℚ
deriving DecidableEq, Repr

namespace StereoSample

instance : Add StereoSample := ⟨fun a b => ⟨a.left + b.left, a.right + b.right⟩⟩

/-- `StereoSample * f64` scaling, used by `Mixer::mix`. -/
def scale (s : StereoSample) (k : ℚ) : StereoSample := ⟨s.left * k, s.right * k⟩

/-- `StereoSample::SILENCE`. -/
def SILENCE : StereoSample := ⟨0, 0⟩

end StereoSample

/-! ## C1: `Track::unlink` (src/track.rs lines 562-574) and the
`EntityRequest::ControlLinkRemove` handler (src/entity.rs lines 220-226). -/

/-- `ControlLink { uid, param }` from ensnare: a directed modulation edge to
target `uid` at parameter `param`. The source uid is the key of the
`control_links` map that holds the link. -/
structure ControlLink where
  uid : ℕ
  param : ℕ
deriving DecidableEq, Repr

/-- The `retain` predicate applied by `Track::unlink` to the source's link
list: `links.retain(|link| link.uid != target_uid && link.param != index)`
(src/track.rs line 570). -/
def unlinkRetain (target_uid index : ℕ) (links : List ControlLink) : List ControlLink :=
  links.filter (fun link => link.uid != target_uid && link.param != index)

/-- `Track::unlink` restricted to its effect on the `control_links` table
(`HashMap<Uid, Vec<ControlLink>>`, modelled as an association list): it
looks up the entry for `source_uid` and retains per `unlinkRetain`.
(The channel sends it also performs do not touch the table.) -/
def unlink (source_uid target_uid index : ℕ)
    (table : List (ℕ × List ControlLink)) : List (ℕ × List ControlLink) :=
  table.map (fun p => if p.1 == source_uid then (p.1, unlinkRetain target_uid index p.2) else p)

/-- The `EntityRequest::ControlLinkRemove(uid, index)` handler on the target
entity's reverse map (src/entity.rs lines 220-226):
`indexes.retain(|&i| i != index)` on the entry for the source uid. -/
def controlLinkRemove (uid index : ℕ) (m : List (ℕ × List ℕ)) : List (ℕ × List ℕ) :=
  m.map (fun p => if p.1 == uid then (p.1, p.2.filter (fun i => i != index)) else p)

/-! ## C2: `Subscription` (src/subscription.rs).
A `Sender<A>` is identified by its channel identity (`same_channel`), which
we model as a natural number: clones of the same sender share the number. -/

/-- `Subscription::subscribe`: `self.subscribers.push(sender.clone())`
(src/subscription.rs lines 15-17). Unconditional push. -/
def subscribe (s : ℕ) (subs : List ℕ) : List ℕ := subs ++ [s]

/-- `Subscription::unsubscribe`:
`self.subscribers.retain(|s| !s.same_channel(sender))` (lines 19-21). -/
def unsubscribe (s : ℕ) (subs : List ℕ) : List ℕ := subs.filter (fun c => c != s)

/-- `Subscription::broadcast_mut` (lines 35-38): try-send the action to every
subscriber in order, retaining exactly those whose send succeeded. `canSend c`
models whether channel `c` accepts the message (its worker is alive and the
queue has room). Returns (retained subscribers, channels that received the
action, in delivery order — one entry per delivery). -/
def broadcastMut (canSend : ℕ → Bool) : List ℕ → List ℕ × List ℕ
  | [] => ([], [])
  | c :: rest =>
      let r := broadcastMut canSend rest
      if canSend c then (c :: r.1, c :: r.2) else (r.1, r.2)

/-! ## C10: non-blocking sends (src/traits.rs lines 29-31, src/entity.rs
lines 269-271). A crossbeam channel is modelled by its bounded queue and a
closed flag; `try_send` returns immediately, reporting success or failure,
and `send`/`send_request` discard that report. -/

/-- A crossbeam channel endpoint: optionally bounded queue plus a closed
flag (the receiver side has been dropped / worker exited). -/
structure Channel (α : Type) where
  capacity : Option ℕ
  queue : List α
  closed : Bool

/-- `Sender::try_send`: never blocks; fails (returning the message to the
caller) when the channel is closed or a bounded queue is full, succeeds
otherwise. Result: channel after the call, and whether the send succeeded. -/
def Channel.trySend {α : Type} (c : Channel α) (msg : α) : Channel α × Bool :=
  if c.closed then (c, false)
  else
    match c.capacity with
    | some cap =>
        if cap ≤ c.queue.length then (c, false)
        else ({ c with queue := c.queue ++ [msg] }, true)
    | none => ({ c with queue := c.queue ++ [msg] }, true)

/-- `ProvidesActorService::send_request` / `EntityActor::send`:
`let _ = self.sender().try_send(request);` — the success report is
discarded, so the caller observes only the (possibly unchanged) channel. -/
def sendRequest {α : Type} (c : Channel α) (msg : α) : Channel α :=
  (c.trySend msg).1

/-! ## C8: the WAV writer's `Frames` handler (src/wav_writer.rs lines 73-87).
`Reset` sets `has_lead_in_ended = false` (line 51); each incoming sample
first flips the flag on the first non-silent sample, and is then written
iff the flag is set. -/

/-- One pass of the `WavWriterInput::Frames(frames)` handler over a batch,
threading `has_lead_in_ended` and collecting the samples actually written. -/
def wavProcess : Bool → List StereoSample → Bool × List StereoSample
  | ended, [] => (ended, [])
  | ended, f :: rest =>
      let ended' := if ended = false ∧ f ≠ StereoSample.SILENCE then true else ended
      let r := wavProcess ended' rest
      (r.1, (if ended' then [f] else []) ++ r.2)

/-! ## C3: `Mixer` (src/mixer.rs). `Normal` is a clamped `[0,1]` level; its
explicit minimum is `0`. `mix` adds `source * relative_level` elementwise
into `dest` over `source.iter().zip(dest.iter_mut())` (extra `dest` entries
beyond `source`'s length are untouched), skipping muted tracks and tracks
whose level is the explicit minimum. `recalc_relative_levels` divides each
level by the total of all registered levels when that total is positive,
and otherwise leaves every `relative_level` at its stale value. -/

/-- `*dst += *src * k` over `source.iter().zip(dest.iter_mut())`: the zip
stops at the shorter list; remaining `dest` entries are unchanged. -/
def addScaled (k : ℚ) : List StereoSample → List StereoSample → List StereoSample
  | [], dest => dest
  | _ :: _, [] => []
  | s :: ss, d :: ds => (d + s.scale k) :: addScaled k ss ds

/-- `MixerParamSet { level, muted, relative_level }`. -/
structure MixerParamSet where
  level : ℚ
  muted : Bool
  relative_level : ℚ
deriving DecidableEq, Repr

/-- `Mixer`: the registered tracks' parameter sets, keyed by `TrackUid`.
(The `track_uids` ordering vector only drives the UI and is omitted.) -/
structure Mixer where
  track_param_sets : List (ℕ × MixerParamSet)
deriving DecidableEq, Repr

namespace Mixer

/-- The total of all registered levels, muted tracks included
(src/mixer.rs lines 44-48). -/
def total (m : Mixer) : ℚ :=
  (m.track_param_sets.map (fun p => p.2.level)).sum

/-- `Mixer::recalc_relative_levels` (lines 43-57): when the total is
positive, set every track's `relative_level` to `level / total` (keeping
`level` and `muted`); otherwise leave everything at its stale value. -/
def recalc_relative_levels (m : Mixer) : Mixer :=
  if 0 < m.total then
    { track_param_sets :=
        m.track_param_sets.map
          (fun p => (p.1, ⟨p.2.level, p.2.muted, p.2.level / m.total⟩)) }
  else m

/-- `Mixer::mix` (lines 28-41). -/
def mix (m : Mixer) (track_uid : ℕ) (source dest : List StereoSample) : List StereoSample :=
  match m.track_param_sets.lookup track_uid with
  | some param_set =>
      if param_set.muted = false ∧ param_set.level ≠ 0 then
        addScaled param_set.relative_level source dest
      else dest
  | none => dest

/-- `Mixer::add_track` (lines 22-26): register with default parameter set
(unit level, not muted) and recompute relative levels. -/
def add_track (m : Mixer) (track_uid : ℕ) : Mixer :=
  Mixer.recalc_relative_levels
    { track_param_sets := m.track_param_sets ++ [(track_uid, ⟨1, false, 0⟩)] }

end Mixer

/-! ## C4: the backpressure bridge in `EngineService::start_thread`
(src/engine.rs). One integer `frames_requested`; every generation cycle is
started as `engine.start_generation(frames_requested.min(64))` after the
counter has been updated for the event being handled. -/

/-- The `EngineServiceInput::NeedsAudio(count)` handler (src/engine.rs lines
136-141 plus the `start_generation` dispatch at lines 207-212): set the
start flag iff the counter was zero, add `count`, then — if flagged — start
one cycle of `min(frames_requested, 64)` frames. Returns the new counter and
the sizes of the cycles started (nil or a singleton). -/
def bridgeNeedsAudio (fr count : ℕ) : ℕ × List ℕ :=
  let start := fr = 0
  let fr' := fr + count
  (fr', if start then [min fr' 64] else [])

/-- The `TrackAction::Frames` handler (src/engine.rs lines 167-201 plus the
dispatch at 207-212) as it affects the counter: for a completed batch of
length `L`, if `frames_requested > L` subtract `L` and start a cycle of
`min(frames_requested, 64)`; otherwise reset the counter to zero. -/
def bridgeFrames (fr L : ℕ) : ℕ × List ℕ :=
  if L < fr then (fr - L, [min (fr - L) 64])
  else (0, [])

/-- An event observed by the bridge loop that touches `frames_requested`. -/
inductive BridgeEvent
  | needsAudio (count : ℕ)
  | batch (frames : List StereoSample)
deriving DecidableEq, Repr

/-- One iteration of the bridge loop. -/
def bridgeStep (fr : ℕ) : BridgeEvent → ℕ × List ℕ
  | .needsAudio count => bridgeNeedsAudio fr count
  | .batch frames => bridgeFrames fr frames.length

/-- The bridge loop over a whole event sequence, collecting every generation
cycle size it starts. -/
def bridgeRun (fr : ℕ) : List BridgeEvent → ℕ × List ℕ
  | [] => (fr, [])
  | e :: rest =>
      let r := bridgeStep fr e
      let r' := bridgeRun r.1 rest
      (r'.1, r.2 ++ r'.2)

/-! ## C5, C6, C7, C9: the track generation state machine
(`TrackActorStateMachine`, src/track.rs lines 56-252).

The machine's observable configuration between message handlings is its
`state` plus its working `buffer`. Handler functions are translated one to
one from the Rust methods; a Rust panic (failed `assert!`, explicit
`panic!`, or `copy_from_slice` on slices of different lengths) becomes
`Except.error`. Emitted channel messages are collected as `TrackOutput`
values in emission order. -/

/-- `TrackActorState` (src/track.rs lines 246-252). -/
inductive TrackActorState
  | Idle
  | AwaitingSources (count : ℕ)
  | AwaitingEffect (queue : List ℕ)
deriving DecidableEq, Repr

/-- The parts of `Track` the state machine reads: the owned entities'
uids in insertion order (`ordered_actor_uids`), the key set of the
`actors` map (listed in the map's iteration order), and the key set of
`send_tracks`. The track invariant maintained by `add_actor`/`remove_actor`
keeps `ordered_actor_uids` and `actors` in sync; handlers below consult
whichever one the Rust code consults. -/
structure SMTrack where
  ordered_actor_uids : List ℕ
  actors : List ℕ
  send_track_uids : List ℕ
deriving DecidableEq, Repr

/-- A message emitted by the state machine, in emission order. -/
inductive TrackOutput
  | sourceRequest (uid : ℕ) (n : ℕ)
  | entityRequest (uid : ℕ) (n : ℕ)
  | transformRequest (uid : ℕ) (buf : List StereoSample)
  | framesOut (buf : List StereoSample)
deriving DecidableEq, Repr

/-- The observable machine configuration: `state` plus the
`GenerationBuffer` contents. -/
structure Machine where
  state : TrackActorState
  buffer : List StereoSample
deriving DecidableEq, Repr

/-- `GenerationBuffer::merge`: elementwise add of `src` into `dst` over the
zipped prefix; `dst` keeps its length. -/
def mergeBuf (dst src : List StereoSample) : List StereoSample :=
  addScaled 1 src dst

/-- `issue_outgoing_frames_action` (src/track.rs lines 198-204): return to
`Idle` and broadcast `TrackAction::Frames` with the current buffer. -/
def issueOutgoing (m : Machine) : Machine × List TrackOutput :=
  ({ m with state := .Idle }, [.framesOut m.buffer])

/-- `advance_state_awaiting_effect` (lines 179-196): pop the front of the
effect queue and send it `NeedsTransformation(current buffer)` (silently
skipping a uid absent from `actors`, as `actors.get` does); with an empty
queue, emit the outgoing frames. Any other state is a `panic!`. -/
def advanceAwaitingEffect (track : SMTrack) (m : Machine) :
    Except String (Machine × List TrackOutput) :=
  match m.state with
  | .AwaitingEffect uids =>
      match uids with
      | uid :: rest =>
          let m' : Machine := { m with state := .AwaitingEffect rest }
          if uid ∈ track.actors then
            .ok (m', [.transformRequest uid m.buffer])
          else
            .ok (m', [])
      | [] => .ok (issueOutgoing m)
  | _ => .error "wrong state"

/-- `advance_state_awaiting_sources` (lines 155-177): with one source still
pending this was the last batch, so seed the effect queue with
`ordered_actor_uids` and advance it; otherwise decrement the pending count.
`Idle` and `AwaitingEffect` are `panic!`s. -/
def advanceAwaitingSources (track : SMTrack) (m : Machine) :
    Except String (Machine × List TrackOutput) :=
  match m.state with
  | .Idle => .error "invalid starting state"
  | .AwaitingSources count =>
      if count = 1 then
        advanceAwaitingEffect track
          { m with state := .AwaitingEffect track.ordered_actor_uids }
      else
        .ok ({ m with state := .AwaitingSources (count - 1) }, [])
  | .AwaitingEffect _ => .error "invalid state"

/-- `handle_incoming_frames` (lines 124-140): assert the batch is at most 64
frames; panic when `Idle`; merge into the buffer when awaiting sources;
replace the buffer (`copy_from_slice`, which requires equal lengths) when
awaiting an effect. -/
def handleIncomingFrames (track : SMTrack) (frames : List StereoSample) (m : Machine) :
    Except String (Machine × List TrackOutput) :=
  if 64 < frames.length then .error "assertion failed: frames.len() <= 64"
  else
    match m.state with
    | .Idle => .error "We got frames when we weren't expecting any"
    | .AwaitingSources _ =>
        advanceAwaitingSources track { m with buffer := mergeBuf m.buffer frames }
    | .AwaitingEffect _ =>
        if frames.length = m.buffer.length then
          advanceAwaitingEffect track { m with buffer := frames }
        else .error "copy_from_slice: length mismatch"

/-- `handle_needs_audio` (lines 206-235): assert `Idle`; resize and clear
the buffer to `count` silent frames; move to `AwaitingSources(k)` with `k`
the number of send tracks plus owned entities and ask each for audio; with
zero sources, immediately emit the silent outgoing frames instead. -/
def handleNeedsAudio (track : SMTrack) (count : ℕ) (m : Machine) :
    Except String (Machine × List TrackOutput) :=
  match m.state with
  | .Idle =>
      let buf := List.replicate count StereoSample.SILENCE
      let k := track.send_track_uids.length + track.actors.length
      let m' : Machine := { state := .AwaitingSources k, buffer := buf }
      if k = 0 then
        .ok (issueOutgoing m')
      else
        .ok (m', track.send_track_uids.map (fun u => TrackOutput.sourceRequest u count)
                   ++ track.actors.map (fun u => TrackOutput.entityRequest u count))
  | _ => .error "expected a clean slate"

/-- `handle_midi_action` (src/track.rs lines 93-106): republish the MIDI
message to the track's subscribers, then forward it to every owned entity
except the one that emitted it. Modelled below in the MIDI section. -/
inductive MidiOut
  | toSubscriber (chan : ℕ) (ch msg : ℕ)
  | toEntity (uid : ℕ) (ch msg : ℕ)
deriving DecidableEq, Repr

/-- A `MidiAction` (src/midi.rs): the emitting entity's uid plus channel
and message payloads. -/
structure MidiActionM where
  source_uid : ℕ
  channel : ℕ
  message : ℕ
deriving DecidableEq, Repr

/-- `TrackActorStateMachine::handle_midi_action`: broadcast
`TrackAction::Midi` to every subscriber, then `EntityRequest::Midi` to every
owned actor whose uid differs from `action.source_uid`. -/
def handleMidiAction (actors : List ℕ) (subs : List ℕ) (a : MidiActionM) : List MidiOut :=
  subs.map (fun s => MidiOut.toSubscriber s a.channel a.message)
    ++ (actors.filter (fun u => u != a.source_uid)).map
        (fun u => MidiOut.toEntity u a.channel a.message)

/-- The reply an entity's worker produces for a `NeedsTransformation`
request (src/entity.rs lines 161-169): run the entity's transform on the
supplied buffer and return it as `EntityAction::Transformed`. `eff uid`
is entity `uid`'s transform function. Requests other than transformation
produce no reply relevant to the generation cycle. -/
def responseTo (eff : ℕ → List StereoSample → List StereoSample) :
    TrackOutput → Option (List StereoSample)
  | .transformRequest uid buf => some (eff uid buf)
  | _ => none

/-- The track actor's message loop, driven synchronously: a queue of
incoming frame batches is consumed in order through
`handle_incoming_frames`; every transformation request the machine emits is
answered by the addressed entity (`eff`) and its reply appended to the
queue. `fuel` bounds the number of loop iterations. Returns the final
machine and the concatenated trace of emitted messages. -/
def runResponses (track : SMTrack) (eff : ℕ → List StereoSample → List StereoSample) :
    ℕ → Machine → List (List StereoSample) → Except String (Machine × List TrackOutput)
  | _, m, [] => .ok (m, [])
  | 0, _, _ :: _ => .error "out of fuel"
  | fuel + 1, m, r :: rest =>
      match handleIncomingFrames track r m with
      | .error e => .error e
      | .ok (m', outs) =>
          match runResponses track eff fuel m' (rest ++ outs.filterMap (responseTo eff)) with
          | .error e => .error e
          | .ok (m'', trace) => .ok (m'', outs ++ trace)

/-- One full generation cycle of a track under the cooperating entities:
`handle_needs_audio` fires the source requests; each send track answers
with `sendGen uid n` frames and each owned entity with `gen uid n` frames
(in dispatch order); transformation requests are answered by `eff`. -/
def runCycle (track : SMTrack) (sendGen gen : ℕ → ℕ → List StereoSample)
    (eff : ℕ → List StereoSample → List StereoSample) (n : ℕ) :
    Except String (Machine × List TrackOutput) :=
  match handleNeedsAudio track n ⟨.Idle, []⟩ with
  | .error e => .error e
  | .ok (m₁, outs₁) =>
      let pending := outs₁.filterMap (fun o =>
        match o with
        | .sourceRequest u k => some (sendGen u k)
        | .entityRequest u k => some (gen u k)
        | .transformRequest u buf => some (eff u buf)
        | .framesOut _ => none)
      let fuel := track.send_track_uids.length + track.actors.length
                    + track.ordered_actor_uids.length + 2
      match runResponses track eff fuel m₁ pending with
      | .error e => .error e
      | .ok (m₂, trace) => .ok (m₂, outs₁ ++ trace)

/-- The buffer the effect chain is seeded with, after folding every source
batch into the initial buffer. -/
def chainApply (eff : ℕ → List StereoSample → List StereoSample)
    (b : List StereoSample) (q : List ℕ) : List StereoSample :=
  q.foldl (fun acc u => eff u acc) b

/-- The transformation requests the machine emits while draining effect
queue `q` starting from buffer `b`: each entity is asked to transform the
previous entity's output. -/
def effectTrace (eff : ℕ → List StereoSample → List StereoSample) :
    List StereoSample → List ℕ → List TrackOutput
  | _, [] => []
  | b, u :: rest => .transformRequest u b :: effectTrace eff (eff u b) rest

/-- `Except.error` marks a Rust panic in this embedding. -/
def isPanic {α : Type} : Except String α → Bool
  | .error _ => true
  | .ok _ => false

/-- The "mix of sources" for one cycle: every send track's and every owned
entity's `n`-frame batch merged (summed) into the freshly cleared buffer,
in dispatch order. -/
def mixOfSources (track : SMTrack) (sendGen gen : ℕ → ℕ → List StereoSample) (n : ℕ) :
    List StereoSample :=
  (track.send_track_uids.map (fun u => sendGen u n)
    ++ track.actors.map (fun u => gen u n)).foldl mergeBuf
      (List.replicate n StereoSample.SILENCE)

/-!
# Theorems

Supporting lemmas first, then one theorem per claim (with witnesses or
counterexamples as required).
-/

theorem StereoSample.add_def (a b : StereoSample) :
    a + b = ⟨a.left + b.left, a.right + b.right⟩ := rfl

theorem StereoSample.scale_zero (s : StereoSample) : s.scale 0 = StereoSample.SILENCE := by
  simp [StereoSample.scale, StereoSample.SILENCE]

theorem StereoSample.add_silence (a : StereoSample) : a + StereoSample.SILENCE = a := by
  cases a; simp [StereoSample.SILENCE, StereoSample.add_def]

/-- `addScaled 0` leaves the destination untouched. -/
theorem addScaled_zero : ∀ (source dest : List StereoSample), addScaled 0 source dest = dest
  | [], _ => rfl
  | _ :: _, [] => rfl
  | s :: ss, d :: ds => by
      simp [addScaled, StereoSample.scale_zero, StereoSample.add_silence,
        addScaled_zero ss ds]

/-- `broadcastMut` retains and delivers to exactly the sendable subscribers,
in order. -/
theorem broadcastMut_eq (canSend : ℕ → Bool) :
    ∀ subs : List ℕ, broadcastMut canSend subs = (subs.filter canSend, subs.filter canSend)
  | [] => rfl
  | c :: rest => by
      simp only [broadcastMut, broadcastMut_eq canSend rest, List.filter]
      cases h : canSend c <;> simp [h]

/-- C1 (code bug, evaluation at the failing input). The claim — and the
spec — say `unlink(source, target, index)` removes exactly the one link
`(source, target, index)`: a link from the same source to the same target
at a different index, and one to a different target at the same index,
must survive. The code's retain predicate
`link.uid != target_uid && link.param != index` instead deletes every link
that matches the target OR the index: with source 1 holding links
(target 2, param 1), (target 2, param 2), (target 3, param 1), the call
`unlink(1, 2, 1)` empties the whole entry. -/
theorem unlink_deletes_nonmatching_links :
    unlink 1 2 1 [(1, [⟨2, 1⟩, ⟨2, 2⟩, ⟨3, 1⟩])] = [(1, [])]
      ∧ unlinkRetain 2 1 [⟨2, 1⟩, ⟨2, 2⟩, ⟨3, 1⟩] = [] := by
  constructor <;> rfl

/-- C2 (counterexample). "A broadcast never delivers the same action twice
to s" fails: after subscribing channel 0 twice to an empty subscription, a
broadcast over fully accepting channels delivers the action to channel 0
twice. -/
theorem subscribe_twice_double_delivers :
    ((broadcastMut (fun _ => true) (subscribe 0 (subscribe 0 []))).2.count 0) = 2 := by
  rfl

/-- C2 (amended). `Subscription::subscribe` is not idempotent: subscribing
the same channel twice appends two entries, and a broadcast delivers the
action once per entry — twice to that channel when it accepts. However
`unsubscribe` removes every entry with the same channel identity, so
subscribing twice and then unsubscribing once leaves zero active
subscriptions for that channel — no dangling duplicate remains. -/
theorem subscribe_push_unsubscribe_clears (subs : List ℕ) (s : ℕ) (canSend : ℕ → Bool) :
    (subscribe s (subscribe s subs)).count s = subs.count s + 2
    ∧ (unsubscribe s (subscribe s (subscribe s subs))).count s = 0
    ∧ (broadcastMut canSend (subscribe s (subscribe s subs))).2.count s
        = (broadcastMut canSend subs).2.count s + (if canSend s then 2 else 0) := by
  refine ⟨?_, ?_, ?_⟩
  · simp [subscribe, List.count_append, List.count_cons]
  · rw [List.count_eq_zero]
    intro hmem
    have := List.of_mem_filter hmem
    simp at this
  · rw [broadcastMut_eq, broadcastMut_eq]
    simp only [subscribe, List.filter_append]
    cases h : canSend s <;> simp [h, List.count_append, List.count_cons]

/-- C8. After a `Reset` (`has_lead_in_ended = false`), the WAV writer's
`Frames` handler suppresses exactly the samples preceding the first
non-silent one and writes that sample and everything after it; in
particular `[SILENCE, SILENCE, (1,1), SILENCE]` writes exactly the third
and fourth samples. -/
theorem wav_writes_after_lead_in :
    (∀ fs : List StereoSample,
        (wavProcess false fs).2 = fs.dropWhile (fun f => decide (f = StereoSample.SILENCE)))
    ∧ (wavProcess false
        [StereoSample.SILENCE, StereoSample.SILENCE, ⟨1, 1⟩, StereoSample.SILENCE]).2
        = [⟨1, 1⟩, StereoSample.SILENCE] := by
  have htrue : ∀ fs : List StereoSample, wavProcess true fs = (true, fs) := by
    intro fs
    induction fs with
    | nil => rfl
    | cons f rest ih => simp [wavProcess, ih]
  have hmain : ∀ fs : List StereoSample,
      (wavProcess false fs).2 = fs.dropWhile (fun f => decide (f = StereoSample.SILENCE)) := by
    intro fs
    induction fs with
    | nil => rfl
    | cons f rest ih =>
        by_cases hf : f = StereoSample.SILENCE
        · subst hf
          simp [wavProcess, List.dropWhile, ih]
        · simp [wavProcess, List.dropWhile, hf, htrue]
  exact ⟨hmain, by rw [hmain]; rfl⟩

/-- C10. `EntityActor::send` and `ProvidesActorService::send_request`
forward through a non-blocking `try_send` and discard its result: the
caller gets no failure report (the function is total with no error
component); when the channel is closed or its bounded queue is full the
message is silently dropped (the channel is unchanged), and otherwise it is
enqueued. -/
theorem sendRequest_never_reports_failure {α : Type} (c : Channel α) (msg : α) :
    (c.closed = true → sendRequest c msg = c)
    ∧ (∀ cap, c.capacity = some cap → cap ≤ c.queue.length → sendRequest c msg = c)
    ∧ (c.closed = false →
        (∀ cap, c.capacity = some cap → c.queue.length < cap) →
        (sendRequest c msg).queue = c.queue ++ [msg]) := by
  refine ⟨?_, ?_, ?_⟩
  · intro h
    simp [sendRequest, Channel.trySend, h]
  · intro cap hcap hfull
    cases hcl : c.closed <;>
      simp [sendRequest, Channel.trySend, hcl, hcap, hfull]
  · intro hcl hroom
    cases hcap : c.capacity with
    | none => simp [sendRequest, Channel.trySend, hcl, hcap]
    | some cap =>
        have := hroom cap hcap
        simp [sendRequest, Channel.trySend, hcl, hcap, Nat.not_le.mpr this]

/-- C10 witness: a send to a closed channel returns unit-like (no error)
and leaves the channel unchanged; a send to an open channel with room
appends. -/
theorem sendRequest_never_reports_failure_witness :
    sendRequest (⟨some 1, [0], true⟩ : Channel ℕ) 7 = ⟨some 1, [0], true⟩
    ∧ (sendRequest (⟨some 2, [0], false⟩ : Channel ℕ) 7).queue = [0] ++ [7] :=
  ⟨(sendRequest_never_reports_failure ⟨some 1, [0], true⟩ 7).1 rfl,
   (sendRequest_never_reports_failure ⟨some 2, [0], false⟩ 7).2.2 rfl
     (by intro cap hcap; cases hcap; decide)⟩

/-- Every generation cycle a single bridge step starts is at most 64
frames. -/
theorem bridgeStep_cycles_le (fr : ℕ) (e : BridgeEvent) :
    ∀ c ∈ (bridgeStep fr e).2, c ≤ 64 := by
  intro c hc
  cases e with
  | needsAudio count =>
      simp only [bridgeStep, bridgeNeedsAudio] at hc
      by_cases h : fr = 0 <;> simp [h] at hc
      omega
  | batch frames =>
      simp only [bridgeStep, bridgeFrames] at hc
      by_cases h : frames.length < fr <;> simp [h] at hc
      omega

/-- C4. The backpressure bridge: a `NeedsAudio(count)` arriving with a zero
counter starts exactly one cycle of `min(count, 64)` frames; every
`NeedsAudio` adds `count` to the counter, and starts nothing when the
counter was nonzero; a completed batch of length `L ≤ 64` with
`frames_requested > L` subtracts `L` and starts one cycle of
`min(frames_requested, 64)`, and otherwise resets the counter to zero
starting nothing; and no cycle the bridge ever starts exceeds 64 frames. -/
theorem bridge_quantizes_to_64 (fr count L : ℕ) (hL : L ≤ 64) :
    (fr = 0 → bridgeNeedsAudio fr count = (count, [min count 64]))
    ∧ (bridgeNeedsAudio fr count).1 = fr + count
    ∧ (fr ≠ 0 → (bridgeNeedsAudio fr count).2 = [])
    ∧ (L < fr → bridgeFrames fr L = (fr - L, [min (fr - L) 64]))
    ∧ (fr ≤ L → bridgeFrames fr L = (0, []))
    ∧ (∀ evs : List BridgeEvent, ∀ c ∈ (bridgeRun fr evs).2, c ≤ 64) := by
  refine ⟨?_, rfl, ?_, ?_, ?_, ?_⟩
  · intro h; subst h; simp [bridgeNeedsAudio]
  · intro h; simp [bridgeNeedsAudio, h]
  · intro h; simp [bridgeFrames, h]
  · intro h; simp [bridgeFrames, Nat.not_lt.mpr h]
  · intro evs
    induction evs generalizing fr with
    | nil => simp [bridgeRun]
    | cons e rest ih =>
        intro c hc
        simp only [bridgeRun, List.mem_append] at hc
        rcases hc with hc | hc
        · exact bridgeStep_cycles_le fr e c hc
        · exact ih _ c hc

/-- C4 witness: the claim's quantities at concrete inputs — a zero counter
receiving `NeedsAudio(96)` starts one 64-frame cycle; a counter of 96
receiving a 64-frame batch subtracts and starts a 32-frame cycle. -/
theorem bridge_quantizes_to_64_witness :
    bridgeNeedsAudio 0 96 = (96, [min 96 64])
    ∧ bridgeFrames 96 64 = (96 - 64, [min (96 - 64) 64]) :=
  ⟨(bridge_quantizes_to_64 0 96 64 (by decide)).1 rfl,
   (bridge_quantizes_to_64 96 96 64 (by decide)).2.2.2.1 (by decide)⟩

/-- C7. A MIDI action emitted by entity X inside a track is forwarded to
exactly the owned entities other than X — never back to X — and is
republished to every one of the track's MIDI subscribers. -/
theorem midi_loop_prevention (actors subs : List ℕ) (a : MidiActionM) :
    (∀ u : ℕ, MidiOut.toEntity u a.channel a.message ∈ handleMidiAction actors subs a
        ↔ u ∈ actors ∧ u ≠ a.source_uid)
    ∧ (∀ s : ℕ, MidiOut.toSubscriber s a.channel a.message ∈ handleMidiAction actors subs a
        ↔ s ∈ subs) := by
  constructor
  · intro u
    simp [handleMidiAction, List.mem_filter, bne_iff_ne]
  · intro s
    simp [handleMidiAction, List.mem_filter]

/-- C7 witness: in a track owning entities 1 and 2 with subscriber 5, a
MIDI action from entity 1 reaches entity 2 and subscriber 5 but not
entity 1. -/
theorem midi_loop_prevention_witness :
    MidiOut.toEntity 2 9 7 ∈ handleMidiAction [1, 2] [5] ⟨1, 9, 7⟩
    ∧ ¬ MidiOut.toEntity 1 9 7 ∈ handleMidiAction [1, 2] [5] ⟨1, 9, 7⟩
    ∧ MidiOut.toSubscriber 5 9 7 ∈ handleMidiAction [1, 2] [5] ⟨1, 9, 7⟩ :=
  ⟨((midi_loop_prevention [1, 2] [5] ⟨1, 9, 7⟩).1 2).mpr (by decide),
   fun h => by
     have := ((midi_loop_prevention [1, 2] [5] ⟨1, 9, 7⟩).1 1).mp h
     simp at this,
   ((midi_loop_prevention [1, 2] [5] ⟨1, 9, 7⟩).2 5).mpr (by decide)⟩

/-- Association-list lookup commutes with `recalc`'s per-value relabelling. -/
theorem lookup_relevel (T : ℚ) (uid : ℕ) :
    ∀ (l : List (ℕ × MixerParamSet)) (ps : MixerParamSet), l.lookup uid = some ps →
      (l.map (fun p => (p.1, (⟨p.2.level, p.2.muted, p.2.level / T⟩ : MixerParamSet)))).lookup uid
        = some ⟨ps.level, ps.muted, ps.level / T⟩
  | [], ps, h => by simp [List.lookup] at h
  | (k, w) :: rest, ps, h => by
      cases hk : uid == k with
      | true =>
          simp only [List.lookup, hk, Option.some.injEq] at h
          subst h
          simp [List.lookup, hk]
      | false =>
          simp only [List.lookup, hk] at h
          simp only [List.map_cons, List.lookup, hk]
          exact lookup_relevel T uid rest ps h

/-- A successful association-list lookup comes from a member pair. -/
theorem lookup_mem (uid : ℕ) (v : MixerParamSet) :
    ∀ l : List (ℕ × MixerParamSet), l.lookup uid = some v → (uid, v) ∈ l
  | [], h => by simp [List.lookup] at h
  | (k, w) :: rest, h => by
      cases hk : uid == k with
      | true =>
          simp only [List.lookup, hk, Option.some.injEq] at h
          subst h
          have : uid = k := eq_of_beq hk
          subst this
          exact List.mem_cons_self _ _
      | false =>
          simp only [List.lookup, hk] at h
          exact List.mem_cons_of_mem _ (lookup_mem uid v rest h)

/-- When the total of nonnegative levels is zero, every registered level is
zero. -/
theorem level_eq_zero_of_total_eq_zero (m : Mixer)
    (hnn : ∀ p ∈ m.track_param_sets, 0 ≤ p.2.level)
    (h0 : m.total = 0) :
    ∀ p ∈ m.track_param_sets, p.2.level = 0 := by
  intro p hp
  have hmem : p.2.level ∈ m.track_param_sets.map (fun q => q.2.level) :=
    List.mem_map.mpr ⟨p, hp, rfl⟩
  have hall : ∀ x ∈ m.track_param_sets.map (fun q => q.2.level), 0 ≤ x := by
    intro x hx
    rcases List.mem_map.mp hx with ⟨q, hq, rfl⟩
    exact hnn q hq
  by_contra hne
  have hpos : 0 < p.2.level := lt_of_le_of_ne (hnn p hp) (Ne.symm hne)
  have hsum : 0 < (m.track_param_sets.map (fun q => q.2.level)).sum :=
    lt_of_lt_of_le hpos (List.single_le_sum hall _ hmem)
  rw [Mixer.total] at h0
  rw [h0] at hsum
  exact lt_irrefl 0 hsum

/-- C3. After `recalc_relative_levels`, for a registered track `uid` with
parameter set `ps` (all registered levels nonnegative) and total `T`:
if `T > 0` and the track is not muted, `mix` adds `source * (ps.level / T)`
elementwise into `dest`; if the track is muted, `mix` is a no-op; and if
`T = 0`, `mix` is a no-op for every registered track. -/
theorem mixer_mix_proportional (m : Mixer) (uid : ℕ) (ps : MixerParamSet)
    (hnn : ∀ p ∈ m.track_param_sets, 0 ≤ p.2.level)
    (hlk : m.track_param_sets.lookup uid = some ps) :
    (0 < m.total → ps.muted = false →
        ∀ source dest, m.recalc_relative_levels.mix uid source dest
          = addScaled (ps.level / m.total) source dest)
    ∧ (ps.muted = true →
        ∀ source dest, m.recalc_relative_levels.mix uid source dest = dest)
    ∧ (m.total = 0 →
        ∀ source dest, m.recalc_relative_levels.mix uid source dest = dest) := by
  refine ⟨?_, ?_, ?_⟩
  · intro hT hmut source dest
    have hlk' : m.recalc_relative_levels.track_param_sets.lookup uid
        = some ⟨ps.level, ps.muted, ps.level / m.total⟩ := by
      rw [Mixer.recalc_relative_levels, if_pos hT]
      exact lookup_relevel m.total uid _ ps hlk
    by_cases hz : ps.level = 0
    · simp only [Mixer.mix, hlk', hz]
      simp [zero_div, addScaled_zero]
    · simp only [Mixer.mix, hlk']
      simp [hmut, hz]
  · intro hmut source dest
    by_cases hT : 0 < m.total
    · have hlk' : m.recalc_relative_levels.track_param_sets.lookup uid
          = some ⟨ps.level, ps.muted, ps.level / m.total⟩ := by
        rw [Mixer.recalc_relative_levels, if_pos hT]
        exact lookup_relevel m.total uid _ ps hlk
      simp only [Mixer.mix, hlk']
      simp [hmut]
    · have hrc : m.recalc_relative_levels = m := by
        rw [Mixer.recalc_relative_levels, if_neg hT]
      rw [hrc]
      simp only [Mixer.mix, hlk]
      simp [hmut]
  · intro hT source dest
    have hrc : m.recalc_relative_levels = m := by
      rw [Mixer.recalc_relative_levels, if_neg (by rw [hT]; exact lt_irrefl 0)]
    have hz : ps.level = 0 :=
      level_eq_zero_of_total_eq_zero m hnn hT (uid, ps) (lookup_mem uid ps _ hlk)
    rw [hrc]
    simp only [Mixer.mix, hlk]
    simp [hz]

/-- C3 witness: a mixer holding tracks 1 (level 1, unmuted) and 2 (level 1,
muted) with total 2: mixing track 1 adds `source * (1/2)` into the
destination; mixing track 2 leaves it untouched. -/
theorem mixer_mix_proportional_witness :
    (Mixer.mix
        (Mixer.recalc_relative_levels ⟨[(1, ⟨1, false, 0⟩), (2, ⟨1, true, 0⟩)]⟩)
        1 [⟨2, 4⟩] [⟨1, 1⟩])
      = addScaled ((1 : ℚ) / Mixer.total ⟨[(1, ⟨1, false, 0⟩), (2, ⟨1, true, 0⟩)]⟩)
          [⟨2, 4⟩] [⟨1, 1⟩]
    ∧ (Mixer.mix
        (Mixer.recalc_relative_levels ⟨[(1, ⟨1, false, 0⟩), (2, ⟨1, true, 0⟩)]⟩)
        2 [⟨2, 4⟩] [⟨1, 1⟩]) = [⟨1, 1⟩] :=
  ⟨(mixer_mix_proportional ⟨[(1, ⟨1, false, 0⟩), (2, ⟨1, true, 0⟩)]⟩ 1 ⟨1, false, 0⟩
      (by intro p hp; fin_cases hp <;> norm_num)
      rfl).1 (by norm_num [Mixer.total]) rfl [⟨2, 4⟩] [⟨1, 1⟩],
   (mixer_mix_proportional ⟨[(1, ⟨1, false, 0⟩), (2, ⟨1, true, 0⟩)]⟩ 2 ⟨1, true, 0⟩
      (by intro p hp; fin_cases hp <;> norm_num)
      rfl).2.1 rfl [⟨2, 4⟩] [⟨1, 1⟩]⟩

/-- `addScaled` preserves the destination's length. -/
theorem addScaled_length (k : ℚ) :
    ∀ source dest : List StereoSample, (addScaled k source dest).length = dest.length
  | [], _ => rfl
  | _ :: _, [] => rfl
  | s :: ss, d :: ds => by simp [addScaled, addScaled_length k ss ds]

/-- `GenerationBuffer::merge` preserves the buffer's length. -/
theorem mergeBuf_length (dst src : List StereoSample) :
    (mergeBuf dst src).length = dst.length :=
  addScaled_length 1 src dst

/-- Folding source batches into the buffer preserves its length. -/
theorem foldl_mergeBuf_length :
    ∀ (rs : List (List StereoSample)) (b : List StereoSample),
      (rs.foldl mergeBuf b).length = b.length
  | [], _ => rfl
  | r :: rest, b => by
      simp [List.foldl_cons, foldl_mergeBuf_length rest (mergeBuf b r), mergeBuf_length]

/-- With an empty response queue the message loop is immediately done. -/
theorem runResponses_nil (track : SMTrack) (eff : ℕ → List StereoSample → List StereoSample)
    (fuel : ℕ) (m : Machine) :
    runResponses track eff fuel m [] = .ok (m, []) := by
  cases fuel <;> rfl

/-- A reply received while effects remain queued: the buffer is replaced
and the next effect in insertion order is asked to transform it. -/
theorem handleIncomingFrames_effect_cons (track : SMTrack) (u : ℕ) (rest : List ℕ)
    (b r : List StereoSample) (hu : u ∈ track.actors)
    (hr : r.length = b.length) (h64 : r.length ≤ 64) :
    handleIncomingFrames track r ⟨.AwaitingEffect (u :: rest), b⟩
      = .ok (⟨.AwaitingEffect rest, r⟩, [.transformRequest u r]) := by
  simp only [handleIncomingFrames]
  rw [if_neg (by omega)]
  simp only [advanceAwaitingEffect]
  rw [if_pos hr, if_pos hu]

/-- A reply received with an exhausted effect queue: the machine emits the
outgoing frames and returns to `Idle`. -/
theorem handleIncomingFrames_effect_nil (track : SMTrack)
    (b r : List StereoSample) (hr : r.length = b.length) (h64 : r.length ≤ 64) :
    handleIncomingFrames track r ⟨.AwaitingEffect [], b⟩
      = .ok (⟨.Idle, r⟩, [.framesOut r]) := by
  simp only [handleIncomingFrames]
  rw [if_neg (by omega)]
  simp only [advanceAwaitingEffect]
  rw [if_pos hr]
  rfl

/-- A source batch received while more than one source is pending: merge it
and keep waiting. -/
theorem handleIncomingFrames_sources_dec (track : SMTrack) (count : ℕ)
    (b f : List StereoSample) (hc : count ≠ 1) (h64 : f.length ≤ 64) :
    handleIncomingFrames track f ⟨.AwaitingSources count, b⟩
      = .ok (⟨.AwaitingSources (count - 1), mergeBuf b f⟩, []) := by
  simp only [handleIncomingFrames]
  rw [if_neg (by omega)]
  simp only [advanceAwaitingSources]
  rw [if_neg hc]

/-- The last pending source batch arrives and the effect queue seeds empty:
the merged buffer goes straight out. -/
theorem handleIncomingFrames_sources_last_nil (track : SMTrack)
    (b f : List StereoSample) (hes : track.ordered_actor_uids = [])
    (h64 : f.length ≤ 64) :
    handleIncomingFrames track f ⟨.AwaitingSources 1, b⟩
      = .ok (⟨.Idle, mergeBuf b f⟩, [.framesOut (mergeBuf b f)]) := by
  simp only [handleIncomingFrames]
  rw [if_neg (by omega)]
  simp only [advanceAwaitingSources]
  rw [if_pos trivial]
  simp only [advanceAwaitingEffect, hes]
  rfl

/-- The last pending source batch arrives and the effect queue seeds with
`e :: rest`: the first effect is asked to transform the merged buffer. -/
theorem handleIncomingFrames_sources_last_cons (track : SMTrack) (e : ℕ) (rest : List ℕ)
    (b f : List StereoSample) (hes : track.ordered_actor_uids = e :: rest)
    (he : e ∈ track.actors) (h64 : f.length ≤ 64) :
    handleIncomingFrames track f ⟨.AwaitingSources 1, b⟩
      = .ok (⟨.AwaitingEffect rest, mergeBuf b f⟩,
             [.transformRequest e (mergeBuf b f)]) := by
  simp only [handleIncomingFrames]
  rw [if_neg (by omega)]
  simp only [advanceAwaitingSources]
  rw [if_pos trivial]
  simp only [advanceAwaitingEffect, hes]
  rw [if_pos he]

/-- Draining the effect queue: starting in `AwaitingEffect q` with the
reply `r` to the outstanding transformation request pending, the machine
asks each queued entity in order to transform the previous entity's
output, replaces the buffer each time, and finally emits one `Frames`
action carrying the fold of all transforms, returning to `Idle`. -/
theorem runResponses_effect (track : SMTrack)
    (eff : ℕ → List StereoSample → List StereoSample)
    (hlen : ∀ u buf, (eff u buf).length = buf.length) :
    ∀ (q : List ℕ) (fuel : ℕ) (b r : List StereoSample),
      (∀ u ∈ q, u ∈ track.actors) →
      r.length = b.length → b.length ≤ 64 →
      q.length + 1 ≤ fuel →
      runResponses track eff fuel ⟨.AwaitingEffect q, b⟩ [r]
        = .ok (⟨.Idle, chainApply eff r q⟩,
               effectTrace eff r q ++ [.framesOut (chainApply eff r q)]) := by
  intro q
  induction q with
  | nil =>
      intro fuel b r _ hr hb hfuel
      cases fuel with
      | zero => omega
      | succ fuel =>
          rw [runResponses,
            handleIncomingFrames_effect_nil track b r hr (by omega)]
          simp [runResponses_nil, chainApply, effectTrace, responseTo]
  | cons u rest ih =>
      intro fuel b r hq hr hb hfuel
      cases fuel with
      | zero => omega
      | succ fuel =>
          rw [runResponses,
            handleIncomingFrames_effect_cons track u rest b r
              (hq u (List.mem_cons_self u rest)) hr (by omega)]
          have hstep := ih fuel r (eff u r)
            (fun v hv => hq v (List.mem_cons_of_mem u hv))
            (hlen u r) (by omega) (by simp at hfuel; omega)
          simp only [List.filterMap, responseTo, List.nil_append]
          rw [hstep]
          simp [chainApply, effectTrace]

/-- The full response phase of one generation cycle: starting in
`AwaitingSources` with exactly the pending source batches queued, each
batch is merged into the buffer (the completion count decrementing), the
last one seeds the effect queue with `ordered_actor_uids`, the effects run
sequentially, and exactly one `Frames` action is emitted carrying the
effect-fold of the merged sources. -/
theorem runResponses_sources (track : SMTrack)
    (eff : ℕ → List StereoSample → List StereoSample)
    (hlen : ∀ u buf, (eff u buf).length = buf.length)
    (hact : ∀ u ∈ track.ordered_actor_uids, u ∈ track.actors) :
    ∀ (rs : List (List StereoSample)) (fuel : ℕ) (b : List StereoSample),
      rs ≠ [] →
      (∀ r ∈ rs, r.length ≤ 64) →
      b.length ≤ 64 →
      rs.length + track.ordered_actor_uids.length + 1 ≤ fuel →
      runResponses track eff fuel ⟨.AwaitingSources rs.length, b⟩ rs
        = .ok (⟨.Idle, chainApply eff (rs.foldl mergeBuf b) track.ordered_actor_uids⟩,
               effectTrace eff (rs.foldl mergeBuf b) track.ordered_actor_uids
                 ++ [.framesOut
                      (chainApply eff (rs.foldl mergeBuf b) track.ordered_actor_uids)]) := by
  intro rs
  induction rs with
  | nil => intro fuel b hne; exact absurd rfl hne
  | cons r rs' ih =>
      intro fuel b _ h64 hb hfuel
      cases fuel with
      | zero => simp at hfuel
      | succ fuel =>
          have hr64 : r.length ≤ 64 := h64 r (List.mem_cons_self r rs')
          by_cases hrs' : rs' = []
          · subst hrs'
            cases hes : track.ordered_actor_uids with
            | nil =>
                rw [runResponses, List.length_cons, List.length_nil,
                  handleIncomingFrames_sources_last_nil track b r hes hr64]
                simp [runResponses_nil, chainApply, effectTrace, responseTo, hes]
            | cons e rest =>
                have he : e ∈ track.actors := hact e (by rw [hes]; exact List.mem_cons_self e rest)
                rw [runResponses, List.length_cons, List.length_nil,
                  handleIncomingFrames_sources_last_cons track e rest b r hes he hr64]
                have hstep := runResponses_effect track eff hlen rest fuel
                  (mergeBuf b r) (eff e (mergeBuf b r))
                  (fun v hv => hact v (by rw [hes]; exact List.mem_cons_of_mem e hv))
                  (hlen e (mergeBuf b r))
                  (by rw [mergeBuf_length]; omega)
                  (by rw [hes] at hfuel; simp at hfuel; omega)
                simp only [List.filterMap, responseTo, List.nil_append]
                rw [hstep]
                simp [chainApply, effectTrace, hes]
          · have hlen1 : rs'.length + 1 ≠ 1 := by
              have := List.length_pos.mpr hrs'
              omega
            rw [runResponses, List.length_cons,
              handleIncomingFrames_sources_dec track (rs'.length + 1) b r hlen1 hr64]
            have hstep := ih fuel (mergeBuf b r) hrs'
              (fun x hx => h64 x (List.mem_cons_of_mem r hx))
              (by rw [mergeBuf_length]; omega)
              (by simp at hfuel; omega)
            simp only [Nat.add_sub_cancel, List.filterMap, List.append_nil]
            rw [hstep]
            simp

/-- `handle_needs_audio` on an idle track with no sources at all: the
silent buffer goes straight out and the machine is back in `Idle`. -/
theorem handleNeedsAudio_no_sources (track : SMTrack) (n : ℕ) (b : List StereoSample)
    (hss : track.send_track_uids = []) (has : track.actors = []) :
    handleNeedsAudio track n ⟨.Idle, b⟩
      = .ok (⟨.Idle, List.replicate n StereoSample.SILENCE⟩,
             [.framesOut (List.replicate n StereoSample.SILENCE)]) := by
  simp [handleNeedsAudio, hss, has, issueOutgoing]

/-- `handle_needs_audio` on an idle track with `k > 0` sources: move to
`AwaitingSources k` over a cleared buffer, asking every send track and
every owned entity for `n` frames. -/
theorem handleNeedsAudio_with_sources (track : SMTrack) (n : ℕ) (b : List StereoSample)
    (hk : track.send_track_uids.length + track.actors.length ≠ 0) :
    handleNeedsAudio track n ⟨.Idle, b⟩
      = .ok (⟨.AwaitingSources (track.send_track_uids.length + track.actors.length),
              List.replicate n StereoSample.SILENCE⟩,
             track.send_track_uids.map (fun u => TrackOutput.sourceRequest u n)
               ++ track.actors.map (fun u => TrackOutput.entityRequest u n)) := by
  simp only [handleNeedsAudio]
  rw [if_neg hk]

/-- The pending responses produced for the initial request fan-out. -/
theorem filterMap_requests (ss as : List ℕ) (sendGen gen : ℕ → ℕ → List StereoSample)
    (eff : ℕ → List StereoSample → List StereoSample) (n : ℕ) :
    ((ss.map (fun u => TrackOutput.sourceRequest u n)
        ++ as.map (fun u => TrackOutput.entityRequest u n)).filterMap (fun o =>
      match o with
      | .sourceRequest u k => some (sendGen u k)
      | .entityRequest u k => some (gen u k)
      | .transformRequest u buf => some (eff u buf)
      | .framesOut _ => none))
      = ss.map (fun u => sendGen u n) ++ as.map (fun u => gen u n) := by
  rw [List.filterMap_append]
  congr 1
  · induction ss with
    | nil => rfl
    | cons u rest ih => simp [List.filterMap, ih]
  · induction as with
    | nil => rfl
    | cons u rest ih => simp [List.filterMap, ih]

/-- One full generation cycle of a track with no send tracks and no owned
entities: a single silent `Frames` action of the requested length, no
intermediate requests, machine back in `Idle`. -/
theorem runCycle_no_sources (track : SMTrack) (sendGen gen : ℕ → ℕ → List StereoSample)
    (eff : ℕ → List StereoSample → List StereoSample) (n : ℕ)
    (hss : track.send_track_uids = []) (has : track.actors = []) :
    runCycle track sendGen gen eff n
      = .ok (⟨.Idle, List.replicate n StereoSample.SILENCE⟩,
             [.framesOut (List.replicate n StereoSample.SILENCE)]) := by
  unfold runCycle
  rw [handleNeedsAudio_no_sources track n [] hss has]
  simp [runResponses_nil, List.filterMap]

/-- One full generation cycle of a track with at least one source: the
requests fan out (send tracks then entities), every source batch is merged,
the effects transform the merged buffer strictly in `ordered_actor_uids`
order — each fed the previous one's output — and exactly one `Frames`
action is emitted carrying `E_m(...E_1(mix_of_sources))`. -/
theorem runCycle_with_sources (track : SMTrack) (sendGen gen : ℕ → ℕ → List StereoSample)
    (eff : ℕ → List StereoSample → List StereoSample) (n : ℕ)
    (hlen : ∀ u buf, (eff u buf).length = buf.length)
    (hact : ∀ u ∈ track.ordered_actor_uids, u ∈ track.actors)
    (hsend : ∀ u ∈ track.send_track_uids, (sendGen u n).length ≤ 64)
    (hgen : ∀ u ∈ track.actors, (gen u n).length ≤ 64)
    (hn : n ≤ 64)
    (hk : track.send_track_uids.length + track.actors.length ≠ 0) :
    runCycle track sendGen gen eff n
      = .ok (⟨.Idle, chainApply eff (mixOfSources track sendGen gen n)
                        track.ordered_actor_uids⟩,
             (track.send_track_uids.map (fun u => TrackOutput.sourceRequest u n)
               ++ track.actors.map (fun u => TrackOutput.entityRequest u n))
             ++ (effectTrace eff (mixOfSources track sendGen gen n)
                    track.ordered_actor_uids
               ++ [.framesOut (chainApply eff (mixOfSources track sendGen gen n)
                               track.ordered_actor_uids)])) := by
  unfold runCycle
  rw [handleNeedsAudio_with_sources track n [] hk]
  simp only
  rw [filterMap_requests]
  have hrslen : (track.send_track_uids.map (fun u => sendGen u n)
      ++ track.actors.map (fun u => gen u n)).length
      = track.send_track_uids.length + track.actors.length := by
    simp
  have hrs := runResponses_sources track eff hlen hact
    (track.send_track_uids.map (fun u => sendGen u n)
      ++ track.actors.map (fun u => gen u n))
    (track.send_track_uids.length + track.actors.length
      + track.ordered_actor_uids.length + 2)
    (List.replicate n StereoSample.SILENCE)
    (by
      intro hempty
      rw [hempty] at hrslen
      simp at hrslen
      omega)
    (by
      intro r hr
      rcases List.mem_append.mp hr with h | h
      · rcases List.mem_map.mp h with ⟨u, hu, rfl⟩
        exact hsend u hu
      · rcases List.mem_map.mp h with ⟨u, hu, rfl⟩
        exact hgen u hu)
    (by simp [hn])
    (by rw [hrslen]; omega)
  rw [hrslen] at hrs
  rw [hrs]
  simp [mixOfSources]

/-- C5. For a track whose effect queue seeds with its owned entities
`E1..Em` in insertion order (`ordered_actor_uids`), the outgoing batch is
`Em(Em-1(...E1(mix_of_sources)))` (`chainApply`): the trace equals the
initial fan-out followed by `effectTrace`, in which entity `E(i+1)` is
asked to transform exactly `Ei`'s result — so no effect is consulted before
its predecessor's reply arrived, and each reply replaces the working
buffer — followed by the single outgoing `Frames` action carrying the
composed result. -/
theorem effect_chain_in_insertion_order (track : SMTrack)
    (sendGen gen : ℕ → ℕ → List StereoSample)
    (eff : ℕ → List StereoSample → List StereoSample) (n : ℕ)
    (hlen : ∀ u buf, (eff u buf).length = buf.length)
    (hact : ∀ u ∈ track.ordered_actor_uids, u ∈ track.actors)
    (hsend : ∀ u ∈ track.send_track_uids, (sendGen u n).length ≤ 64)
    (hgen : ∀ u ∈ track.actors, (gen u n).length ≤ 64)
    (hn : n ≤ 64)
    (hk : track.send_track_uids.length + track.actors.length ≠ 0) :
    runCycle track sendGen gen eff n
      = .ok (⟨.Idle, chainApply eff (mixOfSources track sendGen gen n)
                        track.ordered_actor_uids⟩,
             (track.send_track_uids.map (fun u => TrackOutput.sourceRequest u n)
               ++ track.actors.map (fun u => TrackOutput.entityRequest u n))
             ++ (effectTrace eff (mixOfSources track sendGen gen n)
                    track.ordered_actor_uids
               ++ [.framesOut (chainApply eff (mixOfSources track sendGen gen n)
                               track.ordered_actor_uids)])) :=
  runCycle_with_sources track sendGen gen eff n hlen hact hsend hgen hn hk

/-- C5 witness: a track owning entities 10 and 11 (each also a source),
one-frame cycle. Entity 10 generates (1,0), entity 11 generates (0,1); the
mix is (1,1). Effect 10 adds 10 to the left channel, then effect 11 adds
11: the requests go out in insertion order, each carrying its
predecessor's output, and the outgoing batch is ((1+10)+11, 1) = (22, 1). -/
theorem effect_chain_in_insertion_order_witness :
    runCycle ⟨[10, 11], [10, 11], []⟩ (fun _ _ => [])
      (fun u _ => if u = 10 then [⟨1, 0⟩] else [⟨0, 1⟩])
      (fun u b => b.map (fun s => ⟨s.left + (u : ℚ), s.right⟩)) 1
      = .ok (⟨.Idle, [⟨22, 1⟩]⟩,
             [.entityRequest 10 1, .entityRequest 11 1,
              .transformRequest 10 [⟨1, 1⟩], .transformRequest 11 [⟨11, 1⟩],
              .framesOut [⟨22, 1⟩]]) := by
  rw [effect_chain_in_insertion_order ⟨[10, 11], [10, 11], []⟩ (fun _ _ => [])
    (fun u _ => if u = 10 then [⟨1, 0⟩] else [⟨0, 1⟩])
    (fun u b => b.map (fun s => ⟨s.left + (u : ℚ), s.right⟩)) 1
    (by intro u buf; exact List.length_map buf _)
    (by decide)
    (by simp)
    (by intro u hu; fin_cases hu <;> decide)
    (by decide)
    (by decide)]
  norm_num [mixOfSources, mergeBuf, addScaled, chainApply, effectTrace,
    StereoSample.scale, StereoSample.add_def, StereoSample.SILENCE]

/-- C6. A track with zero send tracks and zero owned entities handling
`NeedsAudio(n)` (n ≤ 64) while `Idle` emits exactly one `Frames` action —
a batch of exactly `n` samples, every one of them `SILENCE` — emits no
source or transformation request (so it never sits in `AwaitingSources` or
`AwaitingEffect` between messages), and is back in `Idle`. -/
theorem zero_source_track_emits_silence (track : SMTrack)
    (sendGen gen : ℕ → ℕ → List StereoSample)
    (eff : ℕ → List StereoSample → List StereoSample) (n : ℕ)
    (hn : n ≤ 64)
    (hss : track.send_track_uids = []) (has : track.actors = []) :
    runCycle track sendGen gen eff n
      = .ok (⟨.Idle, List.replicate n StereoSample.SILENCE⟩,
             [.framesOut (List.replicate n StereoSample.SILENCE)])
    ∧ (List.replicate n StereoSample.SILENCE).length = n
    ∧ ∀ s ∈ List.replicate n StereoSample.SILENCE, s = StereoSample.SILENCE :=
  ⟨runCycle_no_sources track sendGen gen eff n hss has,
   List.length_replicate n _,
   fun _ hs => List.eq_of_mem_replicate hs⟩

/-- C6 witness: the empty track at `n = 3` emits exactly one silent
three-frame batch and ends `Idle`. -/
theorem zero_source_track_emits_silence_witness :
    runCycle ⟨[], [], []⟩ (fun _ _ => []) (fun _ _ => []) (fun _ b => b) 3
      = .ok (⟨.Idle,
              [StereoSample.SILENCE, StereoSample.SILENCE, StereoSample.SILENCE]⟩,
             [.framesOut
               [StereoSample.SILENCE, StereoSample.SILENCE, StereoSample.SILENCE]]) := by
  rw [(zero_source_track_emits_silence ⟨[], [], []⟩ (fun _ _ => []) (fun _ _ => [])
    (fun _ b => b) 3 (by decide) rfl rfl).1]
  rfl

/-- C9. The track state machine fails fast instead of recovering:
an incoming frame batch longer than 64 panics; an incoming frame batch
while `Idle` panics; `NeedsAudio` while not `Idle` panics; and under the
protocol preconditions — generation driven from `Idle`, every source and
effect reply of bounded length matching its request — a full generation
cycle hits none of these panic branches. -/
theorem protocol_violations_fail_fast :
    (∀ (track : SMTrack) (f : List StereoSample) (m : Machine),
        64 < f.length → isPanic (handleIncomingFrames track f m) = true)
    ∧ (∀ (track : SMTrack) (f b : List StereoSample),
        isPanic (handleIncomingFrames track f ⟨.Idle, b⟩) = true)
    ∧ (∀ (track : SMTrack) (n : ℕ) (m : Machine),
        m.state ≠ .Idle → isPanic (handleNeedsAudio track n m) = true)
    ∧ (∀ (track : SMTrack) (sendGen gen : ℕ → ℕ → List StereoSample)
          (eff : ℕ → List StereoSample → List StereoSample) (n : ℕ),
        (∀ u buf, (eff u buf).length = buf.length) →
        (∀ u ∈ track.ordered_actor_uids, u ∈ track.actors) →
        (∀ u ∈ track.send_track_uids, (sendGen u n).length ≤ 64) →
        (∀ u ∈ track.actors, (gen u n).length ≤ 64) →
        n ≤ 64 →
        isPanic (runCycle track sendGen gen eff n) = false) := by
  refine ⟨?_, ?_, ?_, ?_⟩
  · intro track f m h
    simp only [handleIncomingFrames]
    rw [if_pos h]
    rfl
  · intro track f b
    by_cases h : 64 < f.length
    · simp only [handleIncomingFrames]
      rw [if_pos h]
      rfl
    · simp only [handleIncomingFrames]
      rw [if_neg h]
      rfl
  · intro track n m h
    cases m with
    | mk st buf =>
        cases st with
        | Idle => exact absurd rfl h
        | AwaitingSources c => rfl
        | AwaitingEffect q => rfl
  · intro track sendGen gen eff n hlen hact hsend hgen hn
    by_cases hk : track.send_track_uids.length + track.actors.length = 0
    · have hss : track.send_track_uids = [] :=
        List.length_eq_zero.mp (by omega)
      have has : track.actors = [] :=
        List.length_eq_zero.mp (by omega)
      rw [runCycle_no_sources track sendGen gen eff n hss has]
      rfl
    · rw [runCycle_with_sources track sendGen gen eff n hlen hact hsend hgen hn hk]
      rfl

/-- C9 witness: a 65-frame batch panics; frames while `Idle` panic;
`NeedsAudio` while awaiting sources panics; a protocol-respecting cycle on
the empty track does not panic. -/
theorem protocol_violations_fail_fast_witness :
    isPanic (handleIncomingFrames ⟨[], [], []⟩
        (List.replicate 65 StereoSample.SILENCE) ⟨.AwaitingSources 1, []⟩) = true
    ∧ isPanic (handleIncomingFrames ⟨[], [], []⟩ [] ⟨.Idle, []⟩) = true
    ∧ isPanic (handleNeedsAudio ⟨[], [], []⟩ 1 ⟨.AwaitingSources 1, []⟩) = true
    ∧ isPanic (runCycle ⟨[], [], []⟩ (fun _ _ => []) (fun _ _ => [])
        (fun _ b => b) 4) = false :=
  ⟨protocol_violations_fail_fast.1 _ _ _ (by simp),
   protocol_violations_fail_fast.2.1 _ _ _,
   protocol_violations_fail_fast.2.2.1 _ _ _ (by simp),
   protocol_violations_fail_fast.2.2.2 _ _ _ _ 4
     (fun _ _ => rfl) (by simp) (by simp) (by simp) (by decide)⟩
